import Mathlib

/-!
Verification of the bouncy-ball game engine (src/src/main.rs).

The Rust source is shallowly embedded: `f64` values are modelled as exact
rationals (`ℚ`), `usize` as `ℕ`, fixed-size machine arithmetic plays no role
in the verified routines.  Rust's `f64 as usize` cast (saturating: negative
values and NaN go to 0, fractions truncate toward zero) is modelled by
`rustAsUsize`.  The pixel buffer `Vec<u32>` is a `List ℕ`; the indexed
assignment `buffer[index] = pixel`, which panics when `index` is out of
range, is modelled both by the total `List.set` (in `draw_at`) and by an
`Option`-valued checked variant (`draw_at_checked`) whose `none` result
stands for the panic.
-/

/-- Constant from main.rs line 6. -/
def GROUND_DRAG_FACTOR : ℚ := 1/10

/-- Constant from main.rs line 7. -/
def GRAVITY : ℚ := 1/2

/-- Constant from main.rs line 8. -/
def AIR_RESISTANCE_FACTOR : ℚ := 1/100

/-- Constant from main.rs line 9. -/
def DT : ℚ := 1

/-- `struct XYPair { x: f64, y: f64 }` -/
structure XYPair where
  x : ℚ
  y : ℚ
deriving DecidableEq

/-- `struct WindowSize { height: usize, width: usize }` -/
structure WindowSize where
  height : ℕ
  width : ℕ
deriving DecidableEq

/-- `struct ObjectInfo { window_size: WindowSize }` -/
structure ObjectInfo where
  window_size : WindowSize
deriving DecidableEq

/-- `struct GameObjectCommon { coords, velocities, object_info }` -/
structure GameObjectCommon where
  coords : XYPair
  velocities : XYPair
  object_info : Option ObjectInfo
deriving DecidableEq

/-- `enum CollisionShape { Circle(f64) }` -/
inductive CollisionShape where
  | Circle : ℚ → CollisionShape

/-- The closure `on_x_collision` in `Engine::collision_checks`:
`velocities.x = -velocities.x * object.bounciness()`. -/
def on_x_collision (bounciness : ℚ) (velocities : XYPair) : XYPair :=
  { velocities with x := -velocities.x * bounciness }

/-- The closure `on_y_collision` in `Engine::collision_checks`:
reflect `velocities.y`, then if rolling on the ground
(`on_ground && velocities.y.abs() <= 1.0`) apply ground drag to
`velocities.x`. -/
def on_y_collision (bounciness : ℚ) (on_ground : Bool) (velocities : XYPair) : XYPair :=
  let v : XYPair := { velocities with y := -velocities.y * bounciness }
  if on_ground ∧ |v.y| ≤ 1 then { v with x := v.x - v.x * GROUND_DRAG_FACTOR } else v

/-- `Engine::collision_checks` (main.rs lines 103-153).  The source mutates a
local copy of `coords` and `velocities` through four sequential `if`s (left,
right, top, bottom); each later test reads the values as already mutated by
the earlier ones, which the `let` chain reproduces: `cx1` is `coords.x` after
the left-edge test, `cx2` after the right-edge test, and so on.  `on_ground`
is computed once, before any clamp, from the incoming `coords.y`. -/
def collision_checks (window_size : WindowSize) (shape : CollisionShape) (bounciness : ℚ)
    (coords : XYPair) (velocities : XYPair) : XYPair × XYPair :=
  match shape with
  | CollisionShape.Circle radius =>
    let diameter := 2 * radius
    let on_ground : Bool :=
      if coords.y + diameter ≥ (window_size.height : ℚ) then true else false
    -- x axis window collision
    let cx1 : ℚ := if coords.x ≤ 0 then 0 else coords.x
    let v1 : XYPair := if coords.x ≤ 0 then on_x_collision bounciness velocities else velocities
    let cx2 : ℚ :=
      if cx1 + diameter > (window_size.width : ℚ)
      then (window_size.width : ℚ) - diameter else cx1
    let v2 : XYPair :=
      if cx1 + diameter > (window_size.width : ℚ) then on_x_collision bounciness v1 else v1
    -- y axis window collision
    let cy1 : ℚ := if coords.y - diameter < 0 then diameter else coords.y
    let v3 : XYPair :=
      if coords.y - diameter < 0 then on_y_collision bounciness on_ground v2 else v2
    let cy2 : ℚ :=
      if cy1 + diameter > (window_size.height : ℚ)
      then (window_size.height : ℚ) - diameter else cy1
    let v4 : XYPair :=
      if cy1 + diameter > (window_size.height : ℚ)
      then on_y_collision bounciness on_ground v3 else v3
    ({ x := cx2, y := cy2 }, v4)

/-- `Engine::calc_velocities` (main.rs lines 63-75): add gravity to the
vertical component, then scale both components by the air-drag factor, in
source order (`y += gravity; x *= 1-ar*dt; y *= 1-ar*dt`). -/
def calc_velocities (weight_factor : ℚ) (velocities : XYPair) : XYPair :=
  let gravity := GRAVITY * weight_factor * DT
  let vy := velocities.y + gravity
  let vx := velocities.x * (1 - AIR_RESISTANCE_FACTOR * DT)
  let vy2 := vy * (1 - AIR_RESISTANCE_FACTOR * DT)
  { x := vx, y := vy2 }

/-- The x-coordinate part of `collision_checks`: left-edge clamp then
right-edge clamp, the second test reading the first test's result. -/
def xResolve (window_size : WindowSize) (radius : ℚ) (x : ℚ) : ℚ :=
  let diameter := 2 * radius
  let x1 : ℚ := if x ≤ 0 then 0 else x
  if x1 + diameter > (window_size.width : ℚ) then (window_size.width : ℚ) - diameter else x1

/-- The y-coordinate part of `collision_checks`: top-edge clamp then
bottom-edge clamp, the second test reading the first test's result. -/
def yResolve (window_size : WindowSize) (radius : ℚ) (y : ℚ) : ℚ :=
  let diameter := 2 * radius
  let y1 : ℚ := if y - diameter < 0 then diameter else y
  if y1 + diameter > (window_size.height : ℚ) then (window_size.height : ℚ) - diameter else y1

lemma collision_checks_fst (window_size : WindowSize) (radius bounciness : ℚ)
    (coords velocities : XYPair) :
    (collision_checks window_size (CollisionShape.Circle radius) bounciness coords velocities).1
      = { x := xResolve window_size radius coords.x
          y := yResolve window_size radius coords.y } := rfl

lemma xResolve_nonneg (window_size : WindowSize) (radius : ℚ) (x : ℚ)
    (h : 2 * radius ≤ (window_size.width : ℚ)) :
    0 ≤ xResolve window_size radius x := by
  simp only [xResolve]
  split_ifs <;> linarith

lemma xResolve_add_le (window_size : WindowSize) (radius : ℚ) (x : ℚ) :
    xResolve window_size radius x + 2 * radius ≤ (window_size.width : ℚ) := by
  simp only [xResolve]
  split_ifs <;> linarith

lemma yResolve_ge (window_size : WindowSize) (radius : ℚ) (y : ℚ)
    (h : 2 * (2 * radius) ≤ (window_size.height : ℚ)) :
    2 * radius ≤ yResolve window_size radius y := by
  simp only [yResolve]
  split_ifs <;> linarith

lemma yResolve_add_le (window_size : WindowSize) (radius : ℚ) (y : ℚ) :
    yResolve window_size radius y + 2 * radius ≤ (window_size.height : ℚ) := by
  simp only [yResolve]
  split_ifs <;> linarith

lemma xResolve_idem (window_size : WindowSize) (radius : ℚ) (x : ℚ) :
    xResolve window_size radius (xResolve window_size radius x)
      = xResolve window_size radius x := by
  simp only [xResolve]
  split_ifs <;> linarith

lemma yResolve_idem (window_size : WindowSize) (radius : ℚ) (y : ℚ) :
    yResolve window_size radius (yResolve window_size radius y)
      = yResolve window_size radius y := by
  simp only [yResolve]
  split_ifs <;> linarith

/-- C2: one velocity-integration step is the claimed closed form: gravity is
added to the vertical component first, then drag scales both components,
including the already-updated vertical one. -/
theorem calc_velocities_closed_form (weight_factor : ℚ) (v : XYPair) :
    calc_velocities weight_factor v =
      { x := v.x * (1 - AIR_RESISTANCE_FACTOR * DT)
        y := (v.y + GRAVITY * weight_factor * DT) * (1 - AIR_RESISTANCE_FACTOR * DT) } := by
  simp only [calc_velocities]

/-- C1 counterexample: for a circle that does not fit in the viewport
(radius 400, viewport 640 wide and 360 high), the right-edge clamp
`coords.x = width - diameter` and the bottom-edge clamp
`coords.y = height - diameter` land at negative coordinates, so
`position.x >= 0` fails after collision resolution. -/
theorem collision_checks_escapes_viewport_for_oversized_circle :
    (collision_checks { height := 360, width := 640 } (CollisionShape.Circle 400) (3/5)
      { x := 0, y := 0 } { x := 0, y := 0 }).1.x < 0 := by
  norm_num [collision_checks, on_x_collision, on_y_collision]

/-- C1 (amended): if the circle fits in the viewport (`diameter <= width` and
`2 * diameter <= height`), then after `collision_checks` the position
satisfies `0 <= x`, `x + diameter <= width`, `diameter <= y` and
`y + diameter <= height`. -/
theorem collision_checks_keeps_circle_inside_viewport
    (window_size : WindowSize) (radius bounciness : ℚ) (coords velocities : XYPair)
    (h1 : 2 * radius ≤ (window_size.width : ℚ))
    (h2 : 2 * (2 * radius) ≤ (window_size.height : ℚ)) :
    0 ≤ (collision_checks window_size (CollisionShape.Circle radius) bounciness
          coords velocities).1.x ∧
    (collision_checks window_size (CollisionShape.Circle radius) bounciness
          coords velocities).1.x + 2 * radius ≤ (window_size.width : ℚ) ∧
    2 * radius ≤ (collision_checks window_size (CollisionShape.Circle radius) bounciness
          coords velocities).1.y ∧
    (collision_checks window_size (CollisionShape.Circle radius) bounciness
          coords velocities).1.y + 2 * radius ≤ (window_size.height : ℚ) :=
  ⟨xResolve_nonneg window_size radius coords.x h1,
   xResolve_add_le window_size radius coords.x,
   yResolve_ge window_size radius coords.y h2,
   yResolve_add_le window_size radius coords.y⟩

/-- Witness for the amended C1 at a concrete off-screen input. -/
theorem collision_checks_keeps_circle_inside_viewport_witness :
    0 ≤ (collision_checks { height := 360, width := 640 } (CollisionShape.Circle 24) (3/5)
          { x := 700, y := -100 } { x := 1, y := 2 }).1.x ∧
    (collision_checks { height := 360, width := 640 } (CollisionShape.Circle 24) (3/5)
          { x := 700, y := -100 } { x := 1, y := 2 }).1.x + 2 * 24 ≤ ((640 : ℕ) : ℚ) ∧
    2 * 24 ≤ (collision_checks { height := 360, width := 640 } (CollisionShape.Circle 24) (3/5)
          { x := 700, y := -100 } { x := 1, y := 2 }).1.y ∧
    (collision_checks { height := 360, width := 640 } (CollisionShape.Circle 24) (3/5)
          { x := 700, y := -100 } { x := 1, y := 2 }).1.y + 2 * 24 ≤ ((360 : ℕ) : ℚ) :=
  collision_checks_keeps_circle_inside_viewport
    { height := 360, width := 640 } 24 (3/5)
    { x := 700, y := -100 } { x := 1, y := 2 } (by norm_num) (by norm_num)

/-- C3 counterexample: the left-edge test is `coords.x <= 0.0`, so it fires
again on the already-clamped position `x = 0`: starting from
`(-5, 100)` with velocity `(-2, 0)` one resolution gives position `(0, 100)`
and velocity `(6/5, 0)`, but resolving that state again re-reflects the
horizontal velocity (to `-18/25`), so the second call is not a no-op. -/
theorem collision_checks_not_idempotent_at_left_edge :
    collision_checks { height := 360, width := 640 } (CollisionShape.Circle 24) (3/5)
      { x := -5, y := 100 } { x := -2, y := 0 }
      = ({ x := 0, y := 100 }, { x := 6/5, y := 0 }) ∧
    collision_checks { height := 360, width := 640 } (CollisionShape.Circle 24) (3/5)
      { x := 0, y := 100 } { x := 6/5, y := 0 }
      ≠ ({ x := 0, y := 100 }, { x := 6/5, y := 0 }) := by
  constructor
  · norm_num [collision_checks, on_x_collision, on_y_collision, Prod.ext_iff, XYPair.mk.injEq]
  · norm_num [collision_checks, on_x_collision, on_y_collision, Prod.ext_iff, XYPair.mk.injEq]

/-- C3 (amended): a second `collision_checks` call never changes the position
of a once-resolved state; and when the once-resolved position touches neither
the left edge (`0 < x`) nor the ceiling clamp line (`diameter <= y`), the
second call changes nothing at all.  (At `x = 0` the `x <= 0` test re-fires
and re-reflects the horizontal velocity.) -/
theorem collision_checks_idempotent_on_resolved_state
    (window_size : WindowSize) (radius bounciness : ℚ) (coords velocities : XYPair)
    (coords1 velocities1 : XYPair)
    (h : collision_checks window_size (CollisionShape.Circle radius) bounciness coords velocities
          = (coords1, velocities1)) :
    (collision_checks window_size (CollisionShape.Circle radius) bounciness
        coords1 velocities1).1 = coords1 ∧
    (0 < coords1.x → 2 * radius ≤ coords1.y →
      collision_checks window_size (CollisionShape.Circle radius) bounciness
        coords1 velocities1 = (coords1, velocities1)) := by
  have hc : coords1
      = { x := xResolve window_size radius coords.x
          y := yResolve window_size radius coords.y } := by
    rw [← collision_checks_fst window_size radius bounciness coords velocities, h]
  have hx1 : coords1.x = xResolve window_size radius coords.x := by rw [hc]
  have hy1 : coords1.y = yResolve window_size radius coords.y := by rw [hc]
  constructor
  · rw [collision_checks_fst, hc]
    simp only [XYPair.mk.injEq]
    exact ⟨xResolve_idem window_size radius coords.x, yResolve_idem window_size radius coords.y⟩
  · intro hx hy
    have hb1 : ¬ (coords1.x ≤ 0) := not_le.mpr hx
    have hb2 : ¬ ((window_size.width : ℚ) < coords1.x + 2 * radius) := by
      rw [hx1]
      exact not_lt.mpr (xResolve_add_le window_size radius coords.x)
    have hb3 : ¬ (coords1.y - 2 * radius < 0) := not_lt.mpr (by linarith)
    have hb4 : ¬ ((window_size.height : ℚ) < coords1.y + 2 * radius) := by
      rw [hy1]
      exact not_lt.mpr (yResolve_add_le window_size radius coords.y)
    simp only [collision_checks, gt_iff_lt, if_neg hb1, if_neg hb2, if_neg hb3, if_neg hb4]

/-- Witness for the amended C3 at a concrete resolved state. -/
theorem collision_checks_idempotent_witness :
    (collision_checks { height := 360, width := 640 } (CollisionShape.Circle 24) (3/5)
        { x := 100, y := 100 } { x := 1, y := 2 }).1 = { x := 100, y := 100 } ∧
    (0 < (100 : ℚ) → 2 * 24 ≤ (100 : ℚ) →
      collision_checks { height := 360, width := 640 } (CollisionShape.Circle 24) (3/5)
        { x := 100, y := 100 } { x := 1, y := 2 } = ({ x := 100, y := 100 }, { x := 1, y := 2 })) :=
  collision_checks_idempotent_on_resolved_state
    { height := 360, width := 640 } 24 (3/5)
    { x := 100, y := 100 } { x := 1, y := 2 } { x := 100, y := 100 } { x := 1, y := 2 }
    (by norm_num [collision_checks, on_x_collision, on_y_collision, Prod.ext_iff, XYPair.mk.injEq])

/-- C4 counterexample: at exact floor contact (`position.y + diameter ==
viewport.height`, here `312 + 48 = 360`) the bottom-edge test
`coords.y + diameter > height` is strict and does not fire, so no ground
drag is applied: the horizontal velocity stays `2` instead of becoming
`2 * 0.9`. -/
theorem collision_checks_no_ground_drag_at_exact_contact :
    ((312 : ℚ) + 2 * 24 = ((360 : ℕ) : ℚ)) ∧
    (collision_checks { height := 360, width := 640 } (CollisionShape.Circle 24) (3/5)
      { x := 100, y := 312 } { x := 2, y := 0 }).2.x = 2 ∧
    (2 : ℚ) ≠ 2 * (9/10) := by
  refine ⟨by norm_num, ?_, by norm_num⟩
  norm_num [collision_checks, on_x_collision, on_y_collision]

/-- C4 (amended): for a circle strictly overlapping the floor
(`position.y + diameter > viewport.height`; at exact contact nothing fires),
away from the side walls and the ceiling clamp line, with reflected vertical
speed `|(-velocity.y) * bounciness| <= 1`, one `collision_checks` call sets
the horizontal velocity to `velocity.x * 0.9`, with the vertical reflection
applied first, and clamps the position onto the floor. -/
theorem collision_checks_ground_drag_on_floor_overlap
    (window_size : WindowSize) (radius bounciness : ℚ) (coords velocities : XYPair)
    (hx : 0 < coords.x) (hx2 : coords.x + 2 * radius ≤ (window_size.width : ℚ))
    (hy1 : 2 * radius ≤ coords.y)
    (hy2 : (window_size.height : ℚ) < coords.y + 2 * radius)
    (hv : |(-velocities.y * bounciness)| ≤ 1) :
    (collision_checks window_size (CollisionShape.Circle radius) bounciness
        coords velocities).2.x = velocities.x * (9/10) ∧
    (collision_checks window_size (CollisionShape.Circle radius) bounciness
        coords velocities).2.y = -velocities.y * bounciness ∧
    (collision_checks window_size (CollisionShape.Circle radius) bounciness
        coords velocities).1.y = (window_size.height : ℚ) - 2 * radius := by
  have hb1 : ¬ (coords.x ≤ 0) := not_le.mpr hx
  have hb2 : ¬ ((window_size.width : ℚ) < coords.x + 2 * radius) := not_lt.mpr hx2
  have hb3 : ¬ (coords.y - 2 * radius < 0) := not_lt.mpr (by linarith)
  have hg : (window_size.height : ℚ) ≤ coords.y + 2 * radius := le_of_lt hy2
  simp only [collision_checks, on_y_collision, gt_iff_lt, ge_iff_le,
    if_neg hb1, if_neg hb2, if_neg hb3, if_pos hy2, if_pos hg]
  split_ifs with hdrag
  · refine ⟨?_, ?_, ?_⟩ <;> (simp only [GROUND_DRAG_FACTOR]; try ring)
  · exact absurd ⟨trivial, hv⟩ hdrag

/-- Witness for the amended C4 at a concrete floor-overlap input. -/
theorem collision_checks_ground_drag_witness :
    (collision_checks { height := 360, width := 640 } (CollisionShape.Circle 24) (3/5)
        { x := 100, y := 313 } { x := 2, y := 1 }).2.x = 2 * (9/10) ∧
    (collision_checks { height := 360, width := 640 } (CollisionShape.Circle 24) (3/5)
        { x := 100, y := 313 } { x := 2, y := 1 }).2.y = -(1 : ℚ) * (3/5) ∧
    (collision_checks { height := 360, width := 640 } (CollisionShape.Circle 24) (3/5)
        { x := 100, y := 313 } { x := 2, y := 1 }).1.y = ((360 : ℕ) : ℚ) - 2 * 24 :=
  collision_checks_ground_drag_on_floor_overlap
    { height := 360, width := 640 } 24 (3/5) { x := 100, y := 313 } { x := 2, y := 1 }
    (by norm_num) (by norm_num) (by norm_num) (by norm_num) (by norm_num [abs_le])

/-- Rust's `f64 as usize` cast for finite values: truncation toward zero,
saturating at 0 for negative inputs (`(-10.5f64) as usize == 0`), which is
exactly `Nat.floor` on `ℚ`. -/
def rustAsUsize (q : ℚ) : ℕ := ⌊q⌋₊

/-- `raster_vecs.iter().map(|row| row.len()).max().unwrap_or(0)`
(main.rs lines 162-166). -/
def objectWidth (raster_vecs : List (List ℕ)) : ℕ :=
  (raster_vecs.map List.length).foldr max 0

/-- The body of the double loop in `Engine::draw_at` (main.rs lines 170-181):
compute the absolute buffer cell for local cell `(dx, dy)`, and if it is
within buffer bounds, write `row[dx]` there whenever the row has a `dx`-th
entry (`row.get(dx).cloned()`).  The buffer write `buffer[index] = pixel` is
modelled by `List.set`; `writeCellChecked` below models its panic. -/
def writeCell (buffer_width buffer_height : ℕ) (coords : XYPair) (row : List ℕ)
    (dy dx : ℕ) (buffer : List ℕ) : List ℕ :=
  let x := rustAsUsize (coords.x + (dx : ℚ))
  let y := rustAsUsize (coords.y + (dy : ℚ))
  if x < buffer_width ∧ y < buffer_height then
    match row.get? dx with
    | some pixel => buffer.set (y * buffer_width + x) pixel
    | none => buffer
  else buffer

/-- The inner loop `for dx in 0..object_width` of `Engine::draw_at`. -/
def drawRow (buffer_width buffer_height : ℕ) (coords : XYPair) (object_width : ℕ)
    (row : List ℕ) (dy : ℕ) (buffer : List ℕ) : List ℕ :=
  (List.range object_width).foldl
    (fun b dx => writeCell buffer_width buffer_height coords row dy dx b) buffer

/-- The outer loop `for (dy, row) in raster_vecs.iter().enumerate()` of
`Engine::draw_at`, with `dy` carried explicitly. -/
def drawRows (buffer_width buffer_height : ℕ) (coords : XYPair) (object_width : ℕ) :
    ℕ → List (List ℕ) → List ℕ → List ℕ
  | _, [], buffer => buffer
  | dy, row :: rest, buffer =>
    drawRows buffer_width buffer_height coords object_width (dy + 1) rest
      (drawRow buffer_width buffer_height coords object_width row dy buffer)

/-- `Engine::draw_at` (main.rs lines 155-184). -/
def draw_at (buffer : List ℕ) (buffer_width buffer_height : ℕ)
    (raster_vecs : List (List ℕ)) (coords : XYPair) : List ℕ :=
  drawRows buffer_width buffer_height coords (objectWidth raster_vecs) 0 raster_vecs buffer

/-- `writeCell` with the Rust panic made explicit: `buffer[index] = pixel`
panics — here `none` — when `index >= buffer.len()`. -/
def writeCellChecked (buffer_width buffer_height : ℕ) (coords : XYPair) (row : List ℕ)
    (dy dx : ℕ) (buffer : List ℕ) : Option (List ℕ) :=
  let x := rustAsUsize (coords.x + (dx : ℚ))
  let y := rustAsUsize (coords.y + (dy : ℚ))
  if x < buffer_width ∧ y < buffer_height then
    match row.get? dx with
    | some pixel =>
        if y * buffer_width + x < buffer.length
        then some (buffer.set (y * buffer_width + x) pixel)
        else none
    | none => some buffer
  else some buffer

/-- Inner loop of `Engine::draw_at` with the panic made explicit. -/
def drawRowChecked (buffer_width buffer_height : ℕ) (coords : XYPair) (object_width : ℕ)
    (row : List ℕ) (dy : ℕ) (buffer : List ℕ) : Option (List ℕ) :=
  (List.range object_width).foldl
    (fun ob dx => ob.bind (writeCellChecked buffer_width buffer_height coords row dy dx))
    (some buffer)

/-- Outer loop of `Engine::draw_at` with the panic made explicit. -/
def drawRowsChecked (buffer_width buffer_height : ℕ) (coords : XYPair) (object_width : ℕ) :
    ℕ → List (List ℕ) → List ℕ → Option (List ℕ)
  | _, [], buffer => some buffer
  | dy, row :: rest, buffer =>
    (drawRowChecked buffer_width buffer_height coords object_width row dy buffer).bind
      (drawRowsChecked buffer_width buffer_height coords object_width (dy + 1) rest)

/-- `Engine::draw_at` with the buffer-indexing panic made explicit. -/
def draw_at_checked (buffer : List ℕ) (buffer_width buffer_height : ℕ)
    (raster_vecs : List (List ℕ)) (coords : XYPair) : Option (List ℕ) :=
  drawRowsChecked buffer_width buffer_height coords (objectWidth raster_vecs) 0 raster_vecs buffer

/-- The buffer built by `Engine::new` (main.rs line 52):
`vec![0; window_size.width * window_size.height]`. -/
def engine_new_buffer (window_size : WindowSize) : List ℕ :=
  List.replicate (window_size.width * window_size.height) 0

lemma writeCell_length (buffer_width buffer_height : ℕ) (coords : XYPair) (row : List ℕ)
    (dy dx : ℕ) (buffer : List ℕ) :
    (writeCell buffer_width buffer_height coords row dy dx buffer).length = buffer.length := by
  simp only [writeCell]
  split
  · split <;> simp
  · rfl

lemma drawRow_length (buffer_width buffer_height : ℕ) (coords : XYPair) (object_width : ℕ)
    (row : List ℕ) (dy : ℕ) (buffer : List ℕ) :
    (drawRow buffer_width buffer_height coords object_width row dy buffer).length
      = buffer.length := by
  simp only [drawRow]
  induction List.range object_width generalizing buffer with
  | nil => rfl
  | cons a l ih => rw [List.foldl_cons, ih, writeCell_length]

lemma drawRows_length (buffer_width buffer_height : ℕ) (coords : XYPair) (object_width : ℕ)
    (rows : List (List ℕ)) (dy : ℕ) (buffer : List ℕ) :
    (drawRows buffer_width buffer_height coords object_width dy rows buffer).length
      = buffer.length := by
  induction rows generalizing dy buffer with
  | nil => rfl
  | cons row rest ih => rw [drawRows, ih, drawRow_length]

lemma index_lt_of_lt (x y buffer_width buffer_height : ℕ)
    (hx : x < buffer_width) (hy : y < buffer_height) :
    y * buffer_width + x < buffer_width * buffer_height := by
  calc y * buffer_width + x < y * buffer_width + buffer_width := by omega
    _ = (y + 1) * buffer_width := by ring
    _ ≤ buffer_height * buffer_width := Nat.mul_le_mul_right _ (by omega)
    _ = buffer_width * buffer_height := Nat.mul_comm _ _

lemma writeCellChecked_eq (buffer_width buffer_height : ℕ) (coords : XYPair) (row : List ℕ)
    (dy dx : ℕ) (buffer : List ℕ) (h : buffer.length = buffer_width * buffer_height) :
    writeCellChecked buffer_width buffer_height coords row dy dx buffer
      = some (writeCell buffer_width buffer_height coords row dy dx buffer) := by
  simp only [writeCellChecked, writeCell]
  split
  · rename_i hxy
    split
    · rw [if_pos (by rw [h]; exact index_lt_of_lt _ _ _ _ hxy.1 hxy.2)]
    · rfl
  · rfl

lemma drawRowChecked_eq (buffer_width buffer_height : ℕ) (coords : XYPair) (object_width : ℕ)
    (row : List ℕ) (dy : ℕ) (buffer : List ℕ)
    (h : buffer.length = buffer_width * buffer_height) :
    drawRowChecked buffer_width buffer_height coords object_width row dy buffer
      = some (drawRow buffer_width buffer_height coords object_width row dy buffer) := by
  simp only [drawRowChecked, drawRow]
  induction List.range object_width generalizing buffer with
  | nil => rfl
  | cons a l ih =>
    rw [List.foldl_cons, List.foldl_cons, Option.some_bind,
      writeCellChecked_eq _ _ _ _ _ _ _ h]
    exact ih _ (by rw [writeCell_length, h])

lemma drawRowsChecked_eq (buffer_width buffer_height : ℕ) (coords : XYPair) (object_width : ℕ)
    (rows : List (List ℕ)) (dy : ℕ) (buffer : List ℕ)
    (h : buffer.length = buffer_width * buffer_height) :
    drawRowsChecked buffer_width buffer_height coords object_width dy rows buffer
      = some (drawRows buffer_width buffer_height coords object_width dy rows buffer) := by
  induction rows generalizing dy buffer with
  | nil => rfl
  | cons row rest ih =>
    rw [drawRowsChecked, drawRows, drawRowChecked_eq _ _ _ _ _ _ _ h, Option.some_bind]
    exact ih _ _ (by rw [drawRow_length, h])

lemma draw_at_checked_eq (buffer : List ℕ) (buffer_width buffer_height : ℕ)
    (raster_vecs : List (List ℕ)) (coords : XYPair)
    (h : buffer.length = buffer_width * buffer_height) :
    draw_at_checked buffer buffer_width buffer_height raster_vecs coords
      = some (draw_at buffer buffer_width buffer_height raster_vecs coords) :=
  drawRowsChecked_eq _ _ _ _ _ _ _ h

/-- C10: the engine's buffer has length exactly `width * height`, and on any
buffer of that length `Engine::draw_at` never indexes out of range: the
checked compositing step (whose `none` models the Rust indexing panic)
succeeds and agrees with the total model, for every raster grid and every
(possibly off-screen) body position. -/
theorem draw_at_buffer_indexing_safe :
    (∀ window_size : WindowSize,
      (engine_new_buffer window_size).length = window_size.width * window_size.height) ∧
    (∀ (buffer : List ℕ) (buffer_width buffer_height : ℕ)
        (raster_vecs : List (List ℕ)) (coords : XYPair),
      buffer.length = buffer_width * buffer_height →
      draw_at_checked buffer buffer_width buffer_height raster_vecs coords
        = some (draw_at buffer buffer_width buffer_height raster_vecs coords)) :=
  ⟨fun _ => List.length_replicate _ _,
   fun buffer buffer_width buffer_height raster_vecs coords h =>
     draw_at_checked_eq buffer buffer_width buffer_height raster_vecs coords h⟩

/-- Witness for C10 at a concrete buffer and raster. -/
theorem draw_at_buffer_indexing_safe_witness :
    draw_at_checked [0, 0, 0, 0] 2 2 [[5]] { x := 0, y := 1 }
      = some (draw_at [0, 0, 0, 0] 2 2 [[5]] { x := 0, y := 1 }) :=
  draw_at_buffer_indexing_safe.2 [0, 0, 0, 0] 2 2 [[5]] { x := 0, y := 1 } (by norm_num)


lemma rustAsUsize_add_nat (q : ℚ) (n : ℕ) (h : 0 ≤ q) :
    rustAsUsize (q + (n : ℚ)) = rustAsUsize q + n :=
  Nat.floor_add_nat h n

lemma flat_index_lt_flat_index (buffer_width x x' y y' : ℕ) (hx : x < buffer_width)
    (hyy : y < y') : y * buffer_width + x < y' * buffer_width + x' := by
  calc y * buffer_width + x < y * buffer_width + buffer_width := by omega
    _ = (y + 1) * buffer_width := by ring
    _ ≤ y' * buffer_width := Nat.mul_le_mul_right _ (by omega)
    _ ≤ y' * buffer_width + x' := Nat.le_add_right _ _

lemma flat_index_ne (buffer_width x x' y y' : ℕ) (hx : x < buffer_width)
    (hx' : x' < buffer_width) (h : y ≠ y' ∨ x ≠ x') :
    y * buffer_width + x ≠ y' * buffer_width + x' := by
  rcases Nat.lt_trichotomy y y' with hlt | rfl | hgt
  · exact Nat.ne_of_lt (flat_index_lt_flat_index buffer_width x x' y y' hx hlt)
  · rcases h with hy | hx2
    · exact absurd rfl hy
    · intro hh
      exact hx2 (by omega)
  · exact (Nat.ne_of_lt (flat_index_lt_flat_index buffer_width x' x y' y hx' hgt)).symm

lemma writeCell_get?_preserve (buffer_width buffer_height : ℕ) (coords : XYPair)
    (row : List ℕ) (dy dx : ℕ) (buffer : List ℕ) (i : ℕ)
    (h : rustAsUsize (coords.x + (dx : ℚ)) < buffer_width →
      rustAsUsize (coords.y + (dy : ℚ)) < buffer_height →
      rustAsUsize (coords.y + (dy : ℚ)) * buffer_width + rustAsUsize (coords.x + (dx : ℚ)) ≠ i) :
    (writeCell buffer_width buffer_height coords row dy dx buffer).get? i = buffer.get? i := by
  simp only [writeCell]
  split
  · rename_i hxy
    split
    · exact List.get?_set_ne _ _ (h hxy.1 hxy.2)
    · rfl
  · rfl

lemma foldl_writeCell_get?_preserve (buffer_width buffer_height : ℕ) (coords : XYPair)
    (row : List ℕ) (dy : ℕ) (i : ℕ) :
    ∀ (l : List ℕ) (buffer : List ℕ),
      (∀ dx ∈ l, rustAsUsize (coords.x + (dx : ℚ)) < buffer_width →
        rustAsUsize (coords.y + (dy : ℚ)) < buffer_height →
        rustAsUsize (coords.y + (dy : ℚ)) * buffer_width
          + rustAsUsize (coords.x + (dx : ℚ)) ≠ i) →
      (l.foldl (fun b dx => writeCell buffer_width buffer_height coords row dy dx b)
          buffer).get? i = buffer.get? i
  | [], _, _ => rfl
  | a :: l, buffer, h => by
    rw [List.foldl_cons,
      foldl_writeCell_get?_preserve buffer_width buffer_height coords row dy i l _
        (fun dx hdx => h dx (List.mem_cons_of_mem a hdx)),
      writeCell_get?_preserve buffer_width buffer_height coords row dy a buffer i
        (h a (List.mem_cons_self a l))]

lemma drawRow_get?_preserve (buffer_width buffer_height : ℕ) (coords : XYPair)
    (object_width : ℕ) (row : List ℕ) (dy : ℕ) (buffer : List ℕ) (i : ℕ)
    (h : ∀ dx, dx < object_width → rustAsUsize (coords.x + (dx : ℚ)) < buffer_width →
      rustAsUsize (coords.y + (dy : ℚ)) < buffer_height →
      rustAsUsize (coords.y + (dy : ℚ)) * buffer_width
        + rustAsUsize (coords.x + (dx : ℚ)) ≠ i) :
    (drawRow buffer_width buffer_height coords object_width row dy buffer).get? i
      = buffer.get? i :=
  foldl_writeCell_get?_preserve buffer_width buffer_height coords row dy i
    (List.range object_width) buffer (fun dx hdx => h dx (List.mem_range.mp hdx))

lemma drawRows_get?_preserve (buffer_width buffer_height : ℕ) (coords : XYPair)
    (object_width : ℕ) (i : ℕ) :
    ∀ (rows : List (List ℕ)) (dy : ℕ) (buffer : List ℕ),
      (∀ dyy dx, dy ≤ dyy → dyy < dy + rows.length → dx < object_width →
        rustAsUsize (coords.x + (dx : ℚ)) < buffer_width →
        rustAsUsize (coords.y + (dyy : ℚ)) < buffer_height →
        rustAsUsize (coords.y + (dyy : ℚ)) * buffer_width
          + rustAsUsize (coords.x + (dx : ℚ)) ≠ i) →
      (drawRows buffer_width buffer_height coords object_width dy rows buffer).get? i
        = buffer.get? i
  | [], _, _, _ => rfl
  | row :: rest, dy, buffer, h => by
    rw [drawRows,
      drawRows_get?_preserve buffer_width buffer_height coords object_width i rest (dy + 1) _
        (fun dyy dx hge hlt hdx => h dyy dx (by omega)
          (by simp only [List.length_cons]; omega) hdx),
      drawRow_get?_preserve buffer_width buffer_height coords object_width row dy buffer i
        (fun dx hdx => h dy dx (by omega)
          (by simp only [List.length_cons]; omega) hdx)]

lemma foldl_writeCell_get?_write (buffer_width buffer_height : ℕ) (coords : XYPair)
    (row : List ℕ) (dy dx₀ : ℕ) (hcx : 0 ≤ coords.x) (hdx : dx₀ < row.length)
    (hx : rustAsUsize (coords.x + (dx₀ : ℚ)) < buffer_width)
    (hy : rustAsUsize (coords.y + (dy : ℚ)) < buffer_height) :
    ∀ (l : List ℕ), dx₀ ∈ l → l.Nodup →
      ∀ buffer : List ℕ,
        rustAsUsize (coords.y + (dy : ℚ)) * buffer_width
          + rustAsUsize (coords.x + (dx₀ : ℚ)) < buffer.length →
        (l.foldl (fun b dx => writeCell buffer_width buffer_height coords row dy dx b)
            buffer).get?
          (rustAsUsize (coords.y + (dy : ℚ)) * buffer_width
            + rustAsUsize (coords.x + (dx₀ : ℚ)))
          = row.get? dx₀
  | [], hmem, _ => absurd hmem (List.not_mem_nil _)
  | a :: l, hmem, hnd => by
    intro buffer hlen
    rw [List.foldl_cons]
    rcases List.mem_cons.mp hmem with heq | hmem'
    · subst heq
      rw [foldl_writeCell_get?_preserve buffer_width buffer_height coords row dy _ l _ ?hrest]
      case hrest =>
        intro dx hdxl hxx _
        have hne : dx ≠ dx₀ := fun hh => (List.nodup_cons.mp hnd).1 (hh ▸ hdxl)
        refine flat_index_ne _ _ _ _ _ hxx hx (Or.inr ?_)
        rw [rustAsUsize_add_nat _ _ hcx, rustAsUsize_add_nat _ _ hcx]
        omega
      obtain ⟨pixel, hp⟩ : ∃ p, row.get? dx₀ = some p := by
        rw [List.get?_eq_get hdx]
        exact ⟨_, rfl⟩
      simp only [writeCell, if_pos (And.intro hx hy), hp]
      exact List.get?_set_eq_of_lt _ hlen
    · exact foldl_writeCell_get?_write buffer_width buffer_height coords row dy dx₀
        hcx hdx hx hy l hmem' (List.Nodup.of_cons hnd) _
        (by rw [writeCell_length]; exact hlen)

lemma drawRow_get?_write (buffer_width buffer_height : ℕ) (coords : XYPair)
    (object_width : ℕ) (row : List ℕ) (dy dx₀ : ℕ) (buffer : List ℕ)
    (hcx : 0 ≤ coords.x) (hdx : dx₀ < row.length) (hord : dx₀ < object_width)
    (hx : rustAsUsize (coords.x + (dx₀ : ℚ)) < buffer_width)
    (hy : rustAsUsize (coords.y + (dy : ℚ)) < buffer_height)
    (hlen : rustAsUsize (coords.y + (dy : ℚ)) * buffer_width
      + rustAsUsize (coords.x + (dx₀ : ℚ)) < buffer.length) :
    (drawRow buffer_width buffer_height coords object_width row dy buffer).get?
      (rustAsUsize (coords.y + (dy : ℚ)) * buffer_width
        + rustAsUsize (coords.x + (dx₀ : ℚ)))
      = row.get? dx₀ :=
  foldl_writeCell_get?_write buffer_width buffer_height coords row dy dx₀ hcx hdx hx hy
    (List.range object_width) (List.mem_range.mpr hord) (List.nodup_range object_width)
    buffer hlen

lemma drawRows_get?_write (buffer_width buffer_height : ℕ) (coords : XYPair)
    (object_width : ℕ) (hcx : 0 ≤ coords.x) (hcy : 0 ≤ coords.y) :
    ∀ (rows : List (List ℕ)) (j dy : ℕ) (row₀ : List ℕ) (dx₀ : ℕ) (buffer : List ℕ),
      rows.get? j = some row₀ → dx₀ < row₀.length → dx₀ < object_width →
      rustAsUsize (coords.x + (dx₀ : ℚ)) < buffer_width →
      rustAsUsize (coords.y + ((dy + j : ℕ) : ℚ)) < buffer_height →
      rustAsUsize (coords.y + ((dy + j : ℕ) : ℚ)) * buffer_width
        + rustAsUsize (coords.x + (dx₀ : ℚ)) < buffer.length →
      (drawRows buffer_width buffer_height coords object_width dy rows buffer).get?
        (rustAsUsize (coords.y + ((dy + j : ℕ) : ℚ)) * buffer_width
          + rustAsUsize (coords.x + (dx₀ : ℚ)))
        = row₀.get? dx₀
  | [], j, dy, row₀, dx₀, buffer, hj, _, _, _, _, _ => by simp at hj
  | row :: rest, 0, dy, row₀, dx₀, buffer, hj, hdx, hord, hx, hy, hlen => by
    have hrow : row = row₀ := by simpa using hj
    subst hrow
    rw [drawRows]
    rw [drawRows_get?_preserve buffer_width buffer_height coords object_width _
      rest (dy + 1) _ ?hpres]
    case hpres =>
      intro dyy dx hge _ _ hxx _
      refine flat_index_ne _ _ _ _ _ hxx hx (Or.inl ?_)
      rw [rustAsUsize_add_nat _ _ hcy, rustAsUsize_add_nat _ _ hcy]
      omega
    simp only [Nat.add_zero] at hy hlen ⊢
    exact drawRow_get?_write buffer_width buffer_height coords object_width row dy dx₀
      buffer hcx hdx hord hx hy hlen
  | row :: rest, j + 1, dy, row₀, dx₀, buffer, hj, hdx, hord, hx, hy, hlen => by
    have hj' : rest.get? j = some row₀ := by simpa using hj
    rw [drawRows]
    have hshift : dy + (j + 1) = (dy + 1) + j := by omega
    rw [hshift] at hy hlen ⊢
    exact drawRows_get?_write buffer_width buffer_height coords object_width hcx hcy
      rest j (dy + 1) row₀ dx₀ _ hj' hdx hord hx hy
      (by rw [drawRow_length]; exact hlen)

lemma length_le_objectWidth (raster_vecs : List (List ℕ)) (j : ℕ) (row : List ℕ)
    (h : raster_vecs.get? j = some row) : row.length ≤ objectWidth raster_vecs := by
  have hmem : row ∈ raster_vecs := List.get?_mem h
  simp only [objectWidth]
  clear h
  induction raster_vecs with
  | nil => cases hmem
  | cons r rs ih =>
    rcases List.mem_cons.mp hmem with heq | hm
    · subst heq
      simp only [List.map_cons, List.foldr_cons]
      exact le_max_left _ _
    · simp only [List.map_cons, List.foldr_cons]
      exact le_trans (ih hm) (le_max_right _ _)

lemma list_range_one : List.range 1 = [0] := rfl

/-- C5 counterexample: `Engine::draw_at` has no check for the sentinel value
0 — `if let Some(pixel)` only guards against rows shorter than
`object_width`.  A raster whose only cell is the sentinel 0, composited
in bounds over a buffer holding 7, overwrites that buffer cell with 0. -/
theorem draw_at_overwrites_with_sentinel_zero :
    draw_at [7] 1 1 [[0]] { x := 0, y := 0 } = [0] ∧ ([0] : List ℕ) ≠ [7] := by
  constructor
  · norm_num [draw_at, drawRows, drawRow, writeCell, objectWidth, rustAsUsize,
      list_range_one]
  · simp

/-- C5 (amended): during compositing, every local raster cell that exists in
its row and whose absolute buffer cell is within bounds is written into the
buffer — **including** cells holding the sentinel 0, which are written as
color 0 (black) rather than skipped.  Stated for bodies at nonnegative
positions (so distinct local cells land on distinct buffer cells): the final
buffer content at the cell's flat index equals the raster row's entry. -/
theorem draw_at_writes_every_in_bounds_cell
    (buffer : List ℕ) (buffer_width buffer_height : ℕ) (raster_vecs : List (List ℕ))
    (coords : XYPair) (dy₀ dx₀ : ℕ) (row₀ : List ℕ)
    (hrow : raster_vecs.get? dy₀ = some row₀) (hdx : dx₀ < row₀.length)
    (hcx : 0 ≤ coords.x) (hcy : 0 ≤ coords.y)
    (hx : rustAsUsize (coords.x + (dx₀ : ℚ)) < buffer_width)
    (hy : rustAsUsize (coords.y + (dy₀ : ℚ)) < buffer_height)
    (hlen : buffer.length = buffer_width * buffer_height) :
    (draw_at buffer buffer_width buffer_height raster_vecs coords).get?
      (rustAsUsize (coords.y + (dy₀ : ℚ)) * buffer_width
        + rustAsUsize (coords.x + (dx₀ : ℚ)))
      = row₀.get? dx₀ := by
  have h0 : (0 + dy₀ : ℕ) = dy₀ := by omega
  have hmain := drawRows_get?_write buffer_width buffer_height coords
    (objectWidth raster_vecs) hcx hcy raster_vecs dy₀ 0 row₀ dx₀ buffer hrow hdx
    (lt_of_lt_of_le hdx (length_le_objectWidth _ _ _ hrow)) hx
    (by rw [h0]; exact hy)
    (by rw [h0, hlen]; exact index_lt_of_lt _ _ _ _ hx hy)
  rw [h0] at hmain
  rw [draw_at]
  exact hmain

/-- Witness for the amended C5: a sentinel-0 cell in bounds is written as 0. -/
theorem draw_at_writes_every_in_bounds_cell_witness :
    (draw_at [7] 1 1 [[0]] { x := 0, y := 0 }).get?
      (rustAsUsize ((0 : ℚ) + ((0 : ℕ) : ℚ)) * 1 + rustAsUsize ((0 : ℚ) + ((0 : ℕ) : ℚ)))
      = [0].get? 0 :=
  draw_at_writes_every_in_bounds_cell [7] 1 1 [[0]] { x := 0, y := 0 } 0 0 [0]
    rfl (by norm_num) le_rfl le_rfl
    (by norm_num [rustAsUsize]) (by norm_num [rustAsUsize]) rfl

lemma writeCell_oob_eq (buffer_width buffer_height : ℕ) (coords : XYPair) (row : List ℕ)
    (dy dx : ℕ) (buffer : List ℕ)
    (h : ¬ (rustAsUsize (coords.x + (dx : ℚ)) < buffer_width ∧
      rustAsUsize (coords.y + (dy : ℚ)) < buffer_height)) :
    writeCell buffer_width buffer_height coords row dy dx buffer = buffer := by
  simp only [writeCell, if_neg h]

lemma foldl_writeCell_oob_eq (buffer_width buffer_height : ℕ) (coords : XYPair)
    (row : List ℕ) (dy : ℕ) :
    ∀ (l : List ℕ) (buffer : List ℕ),
      (∀ dx ∈ l, ¬ (rustAsUsize (coords.x + (dx : ℚ)) < buffer_width ∧
        rustAsUsize (coords.y + (dy : ℚ)) < buffer_height)) →
      l.foldl (fun b dx => writeCell buffer_width buffer_height coords row dy dx b) buffer
        = buffer
  | [], _, _ => rfl
  | a :: l, buffer, h => by
    rw [List.foldl_cons,
      writeCell_oob_eq buffer_width buffer_height coords row dy a buffer
        (h a (List.mem_cons_self a l))]
    exact foldl_writeCell_oob_eq buffer_width buffer_height coords row dy l buffer
      (fun dx hdx => h dx (List.mem_cons_of_mem a hdx))

lemma drawRow_oob_eq (buffer_width buffer_height : ℕ) (coords : XYPair)
    (object_width : ℕ) (row : List ℕ) (dy : ℕ) (buffer : List ℕ)
    (h : ∀ dx, dx < object_width →
      ¬ (rustAsUsize (coords.x + (dx : ℚ)) < buffer_width ∧
        rustAsUsize (coords.y + (dy : ℚ)) < buffer_height)) :
    drawRow buffer_width buffer_height coords object_width row dy buffer = buffer :=
  foldl_writeCell_oob_eq buffer_width buffer_height coords row dy
    (List.range object_width) buffer (fun dx hdx => h dx (List.mem_range.mp hdx))

lemma drawRows_oob_eq (buffer_width buffer_height : ℕ) (coords : XYPair)
    (object_width : ℕ) :
    ∀ (rows : List (List ℕ)) (dy : ℕ) (buffer : List ℕ),
      (∀ k dx, k < rows.length → dx < object_width →
        ¬ (rustAsUsize (coords.x + (dx : ℚ)) < buffer_width ∧
          rustAsUsize (coords.y + ((dy + k : ℕ) : ℚ)) < buffer_height)) →
      drawRows buffer_width buffer_height coords object_width dy rows buffer = buffer
  | [], _, _, _ => rfl
  | row :: rest, dy, buffer, h => by
    rw [drawRows,
      drawRow_oob_eq buffer_width buffer_height coords object_width row dy buffer
        (fun dx hdx => by
          have hh := h 0 dx (by simp only [List.length_cons]; omega) hdx
          rwa [Nat.add_zero] at hh)]
    exact drawRows_oob_eq buffer_width buffer_height coords object_width rest (dy + 1)
      buffer (fun k dx hk hdx => by
        have hh := h (k + 1) dx (by simp only [List.length_cons]; omega) hdx
        rwa [show dy + (k + 1) = (dy + 1) + k from by omega] at hh)

/-- C6 counterexample: Rust's `f64 as usize` cast saturates negative values
to 0, so a raster cell whose conceptual absolute coordinate
`floor(position.x) + dx = -11` (negative, outside `[0, width)`) is **not**
dropped: it is written into buffer column 0 (here index 2 = row 1, col 0). -/
theorem draw_at_writes_negative_cell_clamped :
    draw_at [0, 0, 0, 0] 2 2 [[5]] { x := -21/2, y := 1 } = [0, 0, 5, 0] ∧
    (⌊(-21/2 : ℚ)⌋ + ((0 : ℕ) : ℤ) < 0) ∧
    ([0, 0, 5, 0] : List ℕ) ≠ [0, 0, 0, 0] := by
  refine ⟨?_, by norm_num, by simp⟩
  have hz : ⌊(-(21/2) : ℚ)⌋₊ = 0 := Nat.floor_of_nonpos (by norm_num)
  norm_num [draw_at, drawRows, drawRow, writeCell, objectWidth, rustAsUsize,
    list_range_one, hz]

/-- C6 (amended): after the saturating `as usize` cast (negative conceptual
coordinates clamp to column/row 0 rather than being dropped), out-of-bounds
raster cells are never written, for every raster grid, buffer, and body
position — including a raster only partially on screen: any buffer index
that no raster cell (row index below the raster's height, column offset
below `object_width`) targets through in-bounds cast coordinates keeps its
previous content, so a cell whose cast coordinates fall outside
`[0,width)×[0,height)` contributes no write anywhere even while other cells
of the same raster do draw; and compositing never raises an error on a
buffer of length `width*height`. -/
theorem draw_at_skips_out_of_bounds_cells :
    (∀ (buffer : List ℕ) (buffer_width buffer_height : ℕ)
        (raster_vecs : List (List ℕ)) (coords : XYPair) (i : ℕ),
      (∀ dy dx, dy < raster_vecs.length → dx < objectWidth raster_vecs →
        rustAsUsize (coords.x + (dx : ℚ)) < buffer_width →
        rustAsUsize (coords.y + (dy : ℚ)) < buffer_height →
        rustAsUsize (coords.y + (dy : ℚ)) * buffer_width
          + rustAsUsize (coords.x + (dx : ℚ)) ≠ i) →
      (draw_at buffer buffer_width buffer_height raster_vecs coords).get? i
        = buffer.get? i) ∧
    (∀ (buffer : List ℕ) (buffer_width buffer_height : ℕ)
        (raster_vecs : List (List ℕ)) (coords : XYPair),
      buffer.length = buffer_width * buffer_height →
      (draw_at_checked buffer buffer_width buffer_height raster_vecs coords).isSome
        = true) := by
  constructor
  · intro buffer buffer_width buffer_height raster_vecs coords i h
    rw [draw_at]
    exact drawRows_get?_preserve buffer_width buffer_height coords
      (objectWidth raster_vecs) i raster_vecs 0 buffer
      (fun dyy dx _ hlt hdx hxx hyy => h dyy dx (by omega) hdx hxx hyy)
  · intro buffer buffer_width buffer_height raster_vecs coords h
    rw [draw_at_checked_eq buffer buffer_width buffer_height raster_vecs coords h]
    rfl

lemma list_range_two : List.range 2 = [0, 1] := rfl

/-- Witness for the amended C6, a straddling raster: `[[5, 6]]` at position
`(1, 0)` over a 2x2 buffer.  The cell `dx = 0` is in bounds and draws
(index 1 becomes 5); the cell `dx = 1` casts to column 2, out of bounds, and
is dropped — index 2 (where an unguarded row-wrapping write
`y*width + x = 2` would land) keeps its previous content — and no error is
raised. -/
theorem draw_at_skips_out_of_bounds_cells_witness :
    draw_at [9, 9, 9, 9] 2 2 [[5, 6]] { x := 1, y := 0 } = [9, 5, 9, 9] ∧
    (draw_at [9, 9, 9, 9] 2 2 [[5, 6]] { x := 1, y := 0 }).get? 2
      = [9, 9, 9, 9].get? 2 ∧
    (draw_at_checked [9, 9, 9, 9] 2 2 [[5, 6]] { x := 1, y := 0 }).isSome = true := by
  refine ⟨?_, ?_, ?_⟩
  · norm_num [draw_at, drawRows, drawRow, writeCell, objectWidth, rustAsUsize,
      list_range_two]
  · refine draw_at_skips_out_of_bounds_cells.1 [9, 9, 9, 9] 2 2 [[5, 6]]
      { x := 1, y := 0 } 2 ?_
    intro dy dx hdy hdx
    show rustAsUsize ((1 : ℚ) + (dx : ℚ)) < 2 → rustAsUsize ((0 : ℚ) + (dy : ℚ)) < 2 →
      rustAsUsize ((0 : ℚ) + (dy : ℚ)) * 2 + rustAsUsize ((1 : ℚ) + (dx : ℚ)) ≠ 2
    rw [rustAsUsize_add_nat 1 dx (by norm_num), rustAsUsize_add_nat 0 dy le_rfl,
      show rustAsUsize (1 : ℚ) = 1 by norm_num [rustAsUsize],
      show rustAsUsize (0 : ℚ) = 0 by norm_num [rustAsUsize]]
    intro hxb hyb
    omega
  · exact draw_at_skips_out_of_bounds_cells.2 [9, 9, 9, 9] 2 2 [[5, 6]]
      { x := 1, y := 0 } rfl

/-- `struct Ball { radius, diameter, color, common }` -/
structure Ball where
  radius : ℚ
  diameter : ℚ
  color : ℕ
  common : GameObjectCommon
deriving DecidableEq

/-- `Ball::draw` (main.rs lines 350-372): a `diameter x diameter` grid
(`self.diameter as usize` per side), initialized to 0, where cell
`raster[y][x]` is set to the ball's color iff
`sqrt(dx*dx + dy*dy) <= radius` with `dx = |x - radius|`,
`dy = |y - radius|`.  Since both sides of that comparison are nonnegative
whenever the grid is nonempty (`diameter >= 1` forces `radius > 0`), the
square-root test is embedded as the equivalent squared comparison
`dx*dx + dy*dy <= radius*radius`; the bridge back to the source's
`sqrt` form is proved in `ball_draw_pixel_iff`. -/
def Ball.draw (b : Ball) : List (List ℕ) :=
  let d := rustAsUsize b.diameter
  (List.range d).map (fun (y : ℕ) =>
    (List.range d).map (fun (x : ℕ) =>
      let dx := |((x : ℕ) : ℚ) - b.radius|
      let dy := |((y : ℕ) : ℚ) - b.radius|
      if dx * dx + dy * dy ≤ b.radius * b.radius then b.color else 0))

/-- Look up local raster cell `(x, y)` (row `y`, column `x`). -/
def cellAt (raster : List (List ℕ)) (x y : ℕ) : Option ℕ :=
  (raster.get? y).bind (fun row => row.get? x)

lemma ball_draw_cell (b : Ball) (x y : ℕ)
    (hx : x < rustAsUsize b.diameter) (hy : y < rustAsUsize b.diameter) :
    cellAt (Ball.draw b) x y
      = some (if |(x : ℚ) - b.radius| * |(x : ℚ) - b.radius|
            + |(y : ℚ) - b.radius| * |(y : ℚ) - b.radius| ≤ b.radius * b.radius
          then b.color else 0) := by
  simp only [Ball.draw, cellAt, List.get?_map, List.get?_range hy, Option.map_some',
    Option.some_bind, List.get?_range hx]

lemma abs_sq_sum_le_iff_sqrt_le (a b r : ℚ) (hr : 0 ≤ r) :
    (|a| * |a| + |b| * |b| ≤ r * r) ↔
      Real.sqrt (((a : ℝ)) ^ 2 + ((b : ℝ)) ^ 2) ≤ (r : ℝ) := by
  rw [Real.sqrt_le_iff, pow_two, pow_two, pow_two, abs_mul_abs_self, abs_mul_abs_self]
  constructor
  · intro h
    exact ⟨by exact_mod_cast hr, by exact_mod_cast h⟩
  · intro h
    exact_mod_cast h.2

/-- C7: in the `diameter x diameter` raster grid of a disc (radius `r`,
`diameter = 2r`, nonzero color), the cell at local `(x, y)` holds the ball's
color iff `sqrt((x-r)^2 + (y-r)^2) <= r`, and holds the sentinel 0 otherwise.
The grid has `diameter as usize` rows. -/
theorem ball_draw_pixel_iff (b : Ball) (hr : 0 ≤ b.radius) (hc : b.color ≠ 0)
    (x y : ℕ) (hx : x < rustAsUsize b.diameter) (hy : y < rustAsUsize b.diameter) :
    ((Ball.draw b).length = rustAsUsize b.diameter) ∧
    (cellAt (Ball.draw b) x y = some b.color ↔
      Real.sqrt (((x : ℝ) - (b.radius : ℝ)) ^ 2 + ((y : ℝ) - (b.radius : ℝ)) ^ 2)
        ≤ (b.radius : ℝ)) ∧
    (cellAt (Ball.draw b) x y = some 0 ↔
      ¬ Real.sqrt (((x : ℝ) - (b.radius : ℝ)) ^ 2 + ((y : ℝ) - (b.radius : ℝ)) ^ 2)
        ≤ (b.radius : ℝ)) := by
  have hcell := ball_draw_cell b x y hx hy
  have hiff := abs_sq_sum_le_iff_sqrt_le ((x : ℚ) - b.radius) ((y : ℚ) - b.radius)
    b.radius hr
  rw [show ((((x : ℚ) - b.radius : ℚ)) : ℝ) = (x : ℝ) - (b.radius : ℝ) by push_cast; ring,
    show ((((y : ℚ) - b.radius : ℚ)) : ℝ) = (y : ℝ) - (b.radius : ℝ) by push_cast; ring]
    at hiff
  refine ⟨by simp [Ball.draw], ?_, ?_⟩
  · rw [hcell]
    by_cases hcond : |(x : ℚ) - b.radius| * |(x : ℚ) - b.radius|
        + |(y : ℚ) - b.radius| * |(y : ℚ) - b.radius| ≤ b.radius * b.radius
    · rw [if_pos hcond]
      exact iff_of_true rfl (hiff.mp hcond)
    · rw [if_neg hcond]
      exact iff_of_false (fun h => hc (Option.some.inj h).symm)
        (fun h => hcond (hiff.mpr h))
  · rw [hcell]
    by_cases hcond : |(x : ℚ) - b.radius| * |(x : ℚ) - b.radius|
        + |(y : ℚ) - b.radius| * |(y : ℚ) - b.radius| ≤ b.radius * b.radius
    · rw [if_pos hcond]
      exact iff_of_false (fun h => hc (Option.some.inj h))
        (fun hn => hn (hiff.mp hcond))
    · rw [if_neg hcond]
      exact iff_of_true rfl (fun h => hcond (hiff.mpr h))

/-- Concrete disc used as witness input: radius 24, diameter 48, color 5. -/
def ball24 : Ball where
  radius := 24
  diameter := 48
  color := 5
  common :=
    { coords := { x := 0, y := 0 }, velocities := { x := 0, y := 0 }, object_info := none }

/-- Witness for C7 at radius 24: cell `(24, 0)` (top-center) is colored,
cell `(0, 0)` (corner) holds the sentinel 0. -/
theorem ball_draw_pixel_iff_witness :
    cellAt (Ball.draw ball24) 24 0 = some 5 ∧ cellAt (Ball.draw ball24) 0 0 = some 0 := by
  have h1 := ball_draw_pixel_iff ball24 (by norm_num [ball24]) (by norm_num [ball24]) 24 0
    (by norm_num [rustAsUsize, ball24]) (by norm_num [rustAsUsize, ball24])
  have h2 := ball_draw_pixel_iff ball24 (by norm_num [ball24]) (by norm_num [ball24]) 0 0
    (by norm_num [rustAsUsize, ball24]) (by norm_num [rustAsUsize, ball24])
  constructor
  · exact h1.2.1.mpr (by rw [Real.sqrt_le_iff]; norm_num [ball24])
  · exact h2.2.2.mpr (by rw [Real.sqrt_le_iff]; norm_num [ball24])

/-- The `minifb::Key` values the ball reacts to (plus `Escape`, used only by
the run loop). -/
inductive Key where
  | A
  | D
  | W
  | Escape
deriving DecidableEq

/-- `Ball::KB_X_BOOST = 0.2` (main.rs line 324). -/
def Ball.KB_X_BOOST : ℚ := 1/5

/-- `Ball::KB_Y_BOOST = 16.0` (main.rs line 325). -/
def Ball.KB_Y_BOOST : ℚ := 16

/-- `Ball::handle_input` (main.rs lines 327-348): `A` subtracts and `D` adds
`KB_X_BOOST` to the horizontal velocity, unconditionally, each call they are
held; `W` subtracts `KB_Y_BOOST` from the vertical velocity only when an
environment snapshot is present, `velocities.y < 0.0`, and
`coords.y + diameter == window_height` (exact equality). -/
def Ball.handle_input (ball : Ball) (keys : List Key) : Ball :=
  let b1 := if Key.A ∈ keys then
      { ball with common := { ball.common with velocities :=
        { ball.common.velocities with x := ball.common.velocities.x - Ball.KB_X_BOOST } } }
    else ball
  let b2 := if Key.D ∈ keys then
      { b1 with common := { b1.common with velocities :=
        { b1.common.velocities with x := b1.common.velocities.x + Ball.KB_X_BOOST } } }
    else b1
  if Key.W ∈ keys then
    match b2.common.object_info with
    | some info =>
      if b2.common.velocities.y < 0 ∧
          b2.common.coords.y + b2.diameter = ((info.window_size.height : ℕ) : ℚ) then
        { b2 with common := { b2.common with velocities :=
          { b2.common.velocities with y := b2.common.velocities.y - Ball.KB_Y_BOOST } } }
      else b2
    | none => b2
  else b2

/-- C8: with an environment snapshot present and the jump key held, one call
to the ball's input handler subtracts exactly 16.0 from the vertical
velocity iff both `velocity.y < 0.0` and
`coords.y + diameter == window_height` hold (exact equality, no tolerance),
and otherwise leaves the vertical velocity unchanged; the horizontal keys
subtract/add exactly 0.2 on every call on which they are held,
unconditionally. -/
theorem ball_handle_input_spec (ball : Ball) (keys : List Key) (info : ObjectInfo)
    (hinfo : ball.common.object_info = some info) (hW : Key.W ∈ keys) :
    (Ball.handle_input ball keys).common.velocities.y =
      (if ball.common.velocities.y < 0 ∧
          ball.common.coords.y + ball.diameter = ((info.window_size.height : ℕ) : ℚ)
        then ball.common.velocities.y - 16 else ball.common.velocities.y) ∧
    (Ball.handle_input ball keys).common.velocities.x =
      ball.common.velocities.x
        - (if Key.A ∈ keys then (1/5 : ℚ) else 0)
        + (if Key.D ∈ keys then (1/5 : ℚ) else 0) := by
  by_cases hA : Key.A ∈ keys <;> by_cases hD : Key.D ∈ keys <;>
    simp only [Ball.handle_input, hA, hD, hW, if_true, if_false, ite_true, ite_false,
      hinfo, Ball.KB_X_BOOST, Ball.KB_Y_BOOST] <;>
    split_ifs <;>
    refine ⟨?_, ?_⟩ <;>
    simp

/-- Viewport used by concrete witness states. -/
def window360 : WindowSize where
  height := 360
  width := 640

/-- Environment snapshot holding `window360`. -/
def info360 : ObjectInfo where
  window_size := window360

/-- Concrete ball resting exactly on the floor of `window360`
(`312 + 48 = 360`), moving up (`velocity.y = -2`). -/
def ball_floor : Ball where
  radius := 24
  diameter := 48
  color := 5
  common :=
    { coords := { x := 100, y := 312 }, velocities := { x := 1, y := -2 },
      object_info := some info360 }

/-- Witness for C8: `W` and `D` held on a rising ball exactly on the floor. -/
theorem ball_handle_input_spec_witness :
    (Ball.handle_input ball_floor [Key.W, Key.D]).common.velocities.y =
      (if ball_floor.common.velocities.y < 0 ∧
          ball_floor.common.coords.y + ball_floor.diameter
            = ((info360.window_size.height : ℕ) : ℚ)
        then ball_floor.common.velocities.y - 16 else ball_floor.common.velocities.y) ∧
    (Ball.handle_input ball_floor [Key.W, Key.D]).common.velocities.x =
      ball_floor.common.velocities.x
        - (if Key.A ∈ [Key.W, Key.D] then (1/5 : ℚ) else 0)
        + (if Key.D ∈ [Key.W, Key.D] then (1/5 : ℚ) else 0) :=
  ball_handle_input_spec ball_floor [Key.W, Key.D] info360 rfl (by simp)

